import Mathlib

/-!
# Verification of the machine-UI reconciliation engine

Shallow embedding of `src/packs/BP/scripts/ui.ts` (storage-bar, item-slot and
progress-indicator renderers, handler-response merging, and the per-session
reconciliation pass `updateEntityUi`) together with the constants from the
public API package.

Side effects on the world (container-slot writes, ledger writes, item
ejections, player-inventory cleanup) are made explicit as an `Effect` list;
fallible code is modelled with `Except`.
-/

/-- `STORAGE_AMOUNT_PER_BAR_SEGMENT` from `constants`. -/
def STORAGE_AMOUNT_PER_BAR_SEGMENT : Nat := 100

/-- `MAX_MACHINE_STORAGE` from `constants`. -/
def MAX_MACHINE_STORAGE : Nat := STORAGE_AMOUNT_PER_BAR_SEGMENT * 64

/-- An item stack. `nameTag` stands for the extra distinguishing properties a
stack may carry (the Minecraft `isStackableWith` test compares the item type
and those properties, never the amount). -/
structure ItemStack where
  typeId : String
  amount : Nat
  nameTag : Option String
deriving DecidableEq, Repr

/-- `new ItemStack(typeId)`: a clean stack of a base kind (amount 1, no
extra properties). -/
def ItemStack.fresh (typeId : String) : ItemStack :=
  { typeId := typeId, amount := 1, nameTag := none }

/-- Modelled from the spec: the behaviour-pack item definitions (not under
`src/`) attach the `fluffyalien_energisticscore:ui_item` tag to the disposable
UI placeholder item types, all of which use the
`fluffyalien_energisticscore:ui_` identifier prefix. -/
def isUiItemId (typeId : String) : Bool :=
  typeId.startsWith "fluffyalien_energisticscore:ui_"

/-- `isUiItem` from `ui.ts`: whether a stack carries the UI-item tag. -/
def isUiItem (item : ItemStack) : Bool :=
  isUiItemId item.typeId

/-- The Minecraft `ContainerSlot.isStackableWith` test: same item type and
same extra properties; amounts are irrelevant. -/
def isStackableWith (a b : ItemStack) : Bool :=
  a.typeId == b.typeId && a.nameTag == b.nameTag

/-- `MachineItemStack` from the public API: a logical item slot entry in the
ledger. -/
structure MachineItemStack where
  typeIndex : Nat
  count : Nat
deriving DecidableEq, Repr

/-- `UiItemSlotElement` from `registry_types.ts` (without the variant tag). -/
structure UiItemSlotElement where
  index : Nat
  slotId : Nat
  allowedItems : List String
deriving DecidableEq, Repr

/-- `UiProgressIndicatorElementType` from `registry_types.ts`. -/
inductive UiProgressIndicatorElementType where
  | arrow
  | flame
deriving DecidableEq, Repr

/-- The string form of an indicator kind, as used in item identifiers and
error messages. -/
def indicatorTypeId : UiProgressIndicatorElementType → String
  | UiProgressIndicatorElementType.arrow => "arrow"
  | UiProgressIndicatorElementType.flame => "flame"

/-- `PROGRESS_INDICATOR_MAX_VALUES` from `ui.ts`. -/
def PROGRESS_INDICATOR_MAX_VALUES : UiProgressIndicatorElementType → Nat
  | UiProgressIndicatorElementType.arrow => 16
  | UiProgressIndicatorElementType.flame => 13

/-- `UiElement` from `registry_types.ts`: the closed tagged union of UI
element layouts. -/
inductive UiElement where
  | storageBar (startIndex : Nat)
  | itemSlot (element : UiItemSlotElement)
  | progressIndicator (indicator : UiProgressIndicatorElementType) (index : Nat)
deriving DecidableEq, Repr

/-- A storage-type registry entry (`StorageTypeDefinition`, the fields the
renderer reads). -/
structure StorageTypeOptions where
  color : String
  name : String
deriving DecidableEq, Repr

/-- `UiStorageBarUpdateOptions` from `registry_types.ts`. -/
structure UiStorageBarUpdateOptions where
  element : String
  type : String
  change : Rat
deriving DecidableEq, Repr

/-- `UpdateUiHandlerResponse` from `registry_types.ts`. The
`progressIndicators` record is modelled as an association list (later
bindings shadow earlier ones, as for duplicate keys of a parsed object). -/
structure UpdateUiHandlerResponse where
  storageBars : Option (List UiStorageBarUpdateOptions)
  progressIndicators : Option (List (String × Rat))
deriving DecidableEq, Repr

/-- `InternalRegisteredMachine`: the fields of a registered machine that
`updateEntityUi` reads. `uiElements` keeps the declaration order of the
`description.ui.elements` record. -/
structure InternalRegisteredMachine where
  id : String
  uiElements : Option (List (String × UiElement))
  updateUiEvent : Option String
deriving DecidableEq, Repr

/-- One observable side effect of a render call, in program order:
a container-slot write, a ledger write (`setMachineSlotItem`, carrying its
`notify` flag), an ejection of a stack into the world at the observing
player's position (`dimension.spawnItem`), or a defensive sweep of UI-tagged
items from the player (`clearUiItemsFromPlayer`). -/
inductive Effect where
  | setSlot (index : Nat) (item : ItemStack)
  | ledgerWrite (slotId : Nat) (item : Option MachineItemStack) (notify : Bool)
  | eject (item : ItemStack)
  | playerCleanup
deriving DecidableEq, Repr

/-- Whether an effect is a container-slot write. -/
def Effect.isSlotWrite : Effect → Bool
  | Effect.setSlot _ _ => true
  | _ => false

/-- Whether an effect is a ledger write. -/
def Effect.isLedger : Effect → Bool
  | Effect.ledgerWrite _ _ _ => true
  | _ => false

/-- Whether an effect is an ejection into the world. -/
def Effect.isEject : Effect → Bool
  | Effect.eject _ => true
  | _ => false

/-- A machine entity's container, indexed by slot. -/
abbrev Inventory := List (Option ItemStack)

/-- `inventory.getItem(i)` / `inventory.getSlot(i)` content. -/
def getSlot (inv : Inventory) (i : Nat) : Option ItemStack :=
  inv.getD i none

/-- `inventory.setItem(i, item)`. -/
def setSlotInv (inv : Inventory) (i : Nat) (item : Option ItemStack) : Inventory :=
  inv.set i item

/-- Modelled from the spec: `machineItemStackToItemStack` from the data
module (not under `src/`) renders a logical slot content as the stack of the
matching allowed item kind with the logical count, and an empty logical slot
as the UI-tagged empty-state placeholder. -/
def machineItemStackToItemStack (element : UiItemSlotElement)
    (machineItem : Option MachineItemStack) : ItemStack :=
  match machineItem with
  | some m =>
      { typeId := element.allowedItems.getD m.typeIndex "",
        amount := m.count, nameTag := none }
  | none =>
      { typeId := "fluffyalien_energisticscore:ui_empty_slot",
        amount := 1, nameTag := none }

/-- TypeScript `Array.prototype.indexOf`, with `-1` rendered as `none`. -/
def indexOfItem : List String → String → Option Nat
  | [], _ => none
  | y :: t, x => if y == x then some 0 else (indexOfItem t x).map (fun n => n + 1)

/-- Modelled from the spec: `truncateNumber(n, 2)` from the string utilities
(not under `src/`) truncates a number to two decimal places for display. -/
def truncateNumber (n : Rat) : Rat :=
  ((n * 100).floor : Rat) / 100

/-- The display label built by `fillUiBar` for every segment stack. -/
def barLabel (labelColorCode name : String) (amount : Nat) (change : Rat) : String :=
  let base := "§r§" ++ labelColorCode ++ toString amount ++ "/" ++
    toString MAX_MACHINE_STORAGE ++ " " ++ name
  if change ≠ 0 then
    base ++ " (" ++ (if change < 0 then "" else "+") ++
      toString (truncateNumber change) ++ "/t)"
  else base

/-- The descending slot loop of `fillUiBar`: iterating `i` from
`startIndex + 3` down to `startIndex`, each slot takes
`min 16 remainingSegments` segments, which are then subtracted from the
remainder. Returns the (slot index, segment count) pairs in write order. -/
def fillUiBarLoop (startIndex : Nat) : Nat → Nat → List (Nat × Nat)
  | 0, _ => []
  | Nat.succ k, remaining =>
      let segments := min 16 remaining
      (startIndex + k, segments) :: fillUiBarLoop startIndex k (remaining - segments)

/-- `fillUiBar` from `ui.ts`: writes the four segment stacks, most-significant
slot first, each labelled with the amount readout. -/
def fillUiBar (segmentItemBaseId labelColorCode name : String)
    (amount startIndex : Nat) (change : Rat) : List Effect :=
  (fillUiBarLoop startIndex 4 (amount / STORAGE_AMOUNT_PER_BAR_SEGMENT)).map
    (fun p => Effect.setSlot p.1
      { typeId := segmentItemBaseId ++ toString p.2,
        amount := 1,
        nameTag := some (barLabel labelColorCode name amount change) })

/-- `fillDisabledUiBar` from `ui.ts`. -/
def fillDisabledUiBar (startIndex : Nat) : List Effect :=
  let itemStack : ItemStack :=
    { typeId := "fluffyalien_energisticscore:ui_disabled_storage_bar_segment",
      amount := 1, nameTag := some "§rDisabled" }
  [Effect.setSlot startIndex itemStack,
   Effect.setSlot (startIndex + 1) itemStack,
   Effect.setSlot (startIndex + 2) itemStack,
   Effect.setSlot (startIndex + 3) itemStack]

/-- The ascending foreign-item scan at the top of `handleBarItems`: walk the
four bar slots; slots holding a UI-tagged item are skipped; at the first slot
that is empty or holds a foreign item, sweep the player's UI items, eject the
occupant if there is one, and stop. -/
def barScanFrom (inv : Inventory) : Nat → Nat → List Effect
  | _, 0 => []
  | i, Nat.succ k =>
      match getSlot inv i with
      | some item =>
          if isUiItem item then barScanFrom inv (i + 1) k
          else [Effect.playerCleanup, Effect.eject item]
      | none => [Effect.playerCleanup]

/-- The state a single item-slot render call can read and write: the logical
item slot in the ledger for `element.slotId` and the container slot at
`element.index`. -/
structure SlotState where
  ledgerItem : Option MachineItemStack
  containerItem : Option ItemStack
deriving DecidableEq, Repr

/-- `handleItemSlot` from `ui.ts`, as a function from the touched state to
the new state and the effect list, given the block's dirty-slot list (the
`machineChangedItemSlots` entry) and the `init` flag. -/
def handleItemSlot (st : SlotState) (element : UiItemSlotElement)
    (changedSlots : Option (List Nat)) (init : Bool) : SlotState × List Effect :=
  let expectedMachineItem := st.ledgerItem
  let expectedItemStack := machineItemStackToItemStack element expectedMachineItem
  let slotChanged := (changedSlots.getD []).contains element.slotId
  if slotChanged || init then
    ({ st with containerItem := some expectedItemStack },
      [Effect.setSlot element.index expectedItemStack])
  else
    match st.containerItem with
    | none =>
        ({ ledgerItem := none,
           containerItem := some (machineItemStackToItemStack element none) },
          [Effect.playerCleanup,
           Effect.ledgerWrite element.slotId none false,
           Effect.setSlot element.index (machineItemStackToItemStack element none)])
    | some containerStack =>
        if isStackableWith containerStack expectedItemStack then
          match expectedMachineItem with
          | some machineItem =>
              if containerStack.amount != expectedItemStack.amount then
                let corrected : MachineItemStack :=
                  { typeIndex := machineItem.typeIndex, count := containerStack.amount }
                ({ st with ledgerItem := some corrected },
                  [Effect.ledgerWrite element.slotId (some corrected) false])
              else (st, [])
          | none => (st, [])
        else
          match indexOfItem element.allowedItems containerStack.typeId with
          | none =>
              ({ ledgerItem := none,
                 containerItem := some (machineItemStackToItemStack element none) },
                [Effect.playerCleanup,
                 Effect.ledgerWrite element.slotId none false,
                 Effect.eject containerStack,
                 Effect.setSlot element.index (machineItemStackToItemStack element none)])
          | some newTypeIndex =>
              if isStackableWith containerStack (ItemStack.fresh containerStack.typeId) then
                let reclassified : MachineItemStack :=
                  { typeIndex := newTypeIndex, count := containerStack.amount }
                ({ st with ledgerItem := some reclassified },
                  [Effect.playerCleanup,
                   Effect.ledgerWrite element.slotId (some reclassified) false])
              else
                ({ ledgerItem := none,
                   containerItem := some (machineItemStackToItemStack element none) },
                  [Effect.playerCleanup,
                   Effect.ledgerWrite element.slotId none false,
                   Effect.eject containerStack,
                   Effect.setSlot element.index (machineItemStackToItemStack element none)])

/-- Lookup in an association list (a JavaScript record / `Map`). -/
def recLookup {κ α : Type} [BEq κ] (m : List (κ × α)) (k : κ) : Option α :=
  (m.find? (fun p => p.1 == k)).map Prod.snd

/-- Setting a key of a JavaScript record: overwrite the binding if the key is
present, otherwise append it (insertion order is kept). -/
def recordSet (m : List (String × Rat)) (k : String) (v : Rat) : List (String × Rat) :=
  if m.any (fun p => p.1 == k) then
    m.map (fun p => if p.1 == k then (k, v) else p)
  else m ++ [(k, v)]

/-- Object spread `({ ...a, ...b })`: every binding of `b` is set into a
copy of `a`, later bindings shadowing earlier ones. -/
def spreadRecord (a b : List (String × Rat)) : List (String × Rat) :=
  b.foldl (fun acc p => recordSet acc p.1 p.2) a

/-- One step of the storage-bar directive merge in `updateEntityUi`: if the
element id is already present, add the directive's `change` onto the stored
entry; otherwise insert the directive. -/
def mergeStorageBarChangesStep (acc : List UiStorageBarUpdateOptions)
    (co : UiStorageBarUpdateOptions) : List UiStorageBarUpdateOptions :=
  if acc.any (fun x => x.element == co.element) then
    acc.map (fun x =>
      if x.element == co.element then { x with change := x.change + co.change } else x)
  else acc ++ [co]

/-- The storage-bar directive merge of `updateEntityUi` (the loop building
`storageBarChanges`). -/
def mergeStorageBarChanges (l : List UiStorageBarUpdateOptions) :
    List UiStorageBarUpdateOptions :=
  l.foldl mergeStorageBarChangesStep []

/-- `getMachineStorage`: the ledger's stored amount for a storage type,
defaulting to 0 when no score is recorded. -/
def getMachineStorage (storage : List (String × Nat)) (type : String) : Nat :=
  (recLookup storage type).getD 0

/-- `STORAGE_TYPE_COLOR_TO_FORMATTING_CODE` from `ui.ts`. -/
def storageTypeColorToFormattingCode (color : String) : String :=
  if color = "black" then "8"
  else if color = "orange" then "6"
  else if color = "pink" then "d"
  else if color = "purple" then "u"
  else if color = "red" then "4"
  else if color = "yellow" then "e"
  else ""

/-- `handleBarItems` from `ui.ts`: run the foreign-item scan over the four
bar slots, then fill the bar (disabled placeholder, or the storage-type fill
after resolving the type against the registry — an unknown type is a fatal
error). -/
def handleBarItems (registry : List (String × StorageTypeOptions))
    (storage : List (String × Nat)) (inv : Inventory) (startIndex : Nat)
    (type : String) (change : Rat) : Except String (List Effect) :=
  let scanEffects := barScanFrom inv startIndex 4
  if type = "_disabled" then
    Except.ok (scanEffects ++ fillDisabledUiBar startIndex)
  else
    match recLookup registry type with
    | none =>
        Except.error ("can't update UI for block: storage type '" ++ type ++
          "' does not exist")
    | some storageTypeOptions =>
        Except.ok (scanEffects ++
          fillUiBar
            ("fluffyalien_energisticscore:ui_storage_bar_segment_" ++
              storageTypeOptions.color)
            (storageTypeColorToFormattingCode storageTypeOptions.color)
            storageTypeOptions.name
            (getMachineStorage storage type)
            startIndex
            change)

/-- `Number.isInteger` on the rational model of a JavaScript number. -/
def valueIsInteger (v : Rat) : Bool :=
  v.den == 1

/-- `handleProgressIndicator` from `ui.ts`: validate the value first (fatal
error when it is not an integer in `[0, max]`), then sweep/eject a foreign
occupant, then write the indicator stack. -/
def handleProgressIndicator (inv : Inventory) (index : Nat)
    (indicator : UiProgressIndicatorElementType) (value : Rat) :
    Except String (List Effect) :=
  let maxValue := PROGRESS_INDICATOR_MAX_VALUES indicator
  if value < 0 ∨ (maxValue : Rat) < value ∨ valueIsInteger value = false then
    Except.error ("can't update UI: can't update progress indicator (indicator: '" ++
      indicatorTypeId indicator ++ "'): expected 'value' to be an integer between 0 and " ++
      toString maxValue ++ " (inclusive) but got " ++ toString value)
  else
    let pre : List Effect :=
      match getSlot inv index with
      | some inventoryItem =>
          if isUiItem inventoryItem then []
          else [Effect.playerCleanup, Effect.eject inventoryItem]
      | none => [Effect.playerCleanup]
    Except.ok (pre ++
      [Effect.setSlot index
        { typeId := "fluffyalien_energisticscore:ui_progress_" ++
            indicatorTypeId indicator ++ toString value.num,
          amount := 1, nameTag := none }])

/-- The per-pass mutable state `updateEntityUi` can touch: the machine
entity's container, the ledger's logical item slots for this block, and the
global dirty-slot map `machineChangedItemSlots`. -/
structure UiState where
  inventory : Inventory
  ledger : List (Nat × MachineItemStack)
  dirtyMap : List (String × List Nat)
deriving DecidableEq, Repr

/-- Replace the ledger's logical item slot `k` (removal for `none`). -/
def ledgerSet (m : List (Nat × MachineItemStack)) (k : Nat)
    (v : Option MachineItemStack) : List (Nat × MachineItemStack) :=
  match v with
  | none => m.filter (fun p => p.1 != k)
  | some mi => m.filter (fun p => p.1 != k) ++ [(k, mi)]

/-- Apply one effect to the pass state (ejections and player cleanup leave
the tracked state unchanged). -/
def applyOneEffect (st : UiState) : Effect → UiState
  | Effect.setSlot i item => { st with inventory := setSlotInv st.inventory i (some item) }
  | Effect.ledgerWrite k v _ => { st with ledger := ledgerSet st.ledger k v }
  | _ => st

/-- Apply an effect list, in order, to the pass state. -/
def applyEffects (st : UiState) (effs : List Effect) : UiState :=
  effs.foldl applyOneEffect st

/-- Dispatch of one declared UI element inside `updateEntityUi`'s loop. -/
def processElement (registry : List (String × StorageTypeOptions))
    (storage : List (String × Nat)) (blockUid : String)
    (storageBarChanges : List UiStorageBarUpdateOptions)
    (progressIndicators : List (String × Rat)) (init : Bool)
    (st : UiState) (idElem : String × UiElement) :
    Except String (UiState × List Effect) :=
  match idElem.2 with
  | UiElement.storageBar startIndex =>
      let result :=
        match storageBarChanges.find? (fun x => x.element == idElem.1) with
        | some changeOptions =>
            handleBarItems registry storage st.inventory startIndex
              changeOptions.type changeOptions.change
        | none =>
            handleBarItems registry storage st.inventory startIndex "_disabled" 0
      match result with
      | Except.error msg => Except.error msg
      | Except.ok effs => Except.ok (applyEffects st effs, effs)
  | UiElement.itemSlot element =>
      let slotState : SlotState :=
        { ledgerItem := recLookup st.ledger element.slotId,
          containerItem := getSlot st.inventory element.index }
      let r := handleItemSlot slotState element (recLookup st.dirtyMap blockUid) init
      Except.ok (applyEffects st r.2, r.2)
  | UiElement.progressIndicator indicator index =>
      match handleProgressIndicator st.inventory index indicator
          ((recLookup progressIndicators idElem.1).getD 0) with
      | Except.error msg => Except.error msg
      | Except.ok effs => Except.ok (applyEffects st effs, effs)

/-- The element loop of `updateEntityUi`, in declaration order; a fatal error
from any element aborts the rest of the pass. -/
def processElements (registry : List (String × StorageTypeOptions))
    (storage : List (String × Nat)) (blockUid : String)
    (storageBarChanges : List UiStorageBarUpdateOptions)
    (progressIndicators : List (String × Rat)) (init : Bool) :
    UiState → List (String × UiElement) → Except String (UiState × List Effect)
  | st, [] => Except.ok (st, [])
  | st, idElem :: rest =>
      match processElement registry storage blockUid storageBarChanges
          progressIndicators init st idElem with
      | Except.error msg => Except.error msg
      | Except.ok (st', effs) =>
          match processElements registry storage blockUid storageBarChanges
              progressIndicators init st' rest with
          | Except.error msg => Except.error msg
          | Except.ok (st'', effs') => Except.ok (st'', effs ++ effs')

/-- `updateEntityUi` from `ui.ts`, from the resume point of view: the machine
definition is validated, the handler response `handlerResult` has been
awaited, `entityValidAfterHandler` tells whether the entity is still valid at
the resume, the response is merged, the element loop runs, and finally the
whole dirty-slot map is cleared. -/
def updateEntityUi (definition : InternalRegisteredMachine)
    (registry : List (String × StorageTypeOptions))
    (storage : List (String × Nat)) (blockUid : String)
    (handlerResult : UpdateUiHandlerResponse)
    (entityValidAfterHandler : Bool) (init : Bool) (st : UiState) :
    Except String (UiState × List Effect) :=
  match definition.uiElements with
  | none =>
      Except.error ("machine '" ++ definition.id ++
        "' does not have 'description.ui' defined but has a machine entity")
  | some uiElements =>
      match definition.updateUiEvent with
      | none =>
          Except.error ("machine '" ++ definition.id ++
            "' is missing the 'updateUi' handler but has 'description.ui' defined")
      | some _ =>
          if entityValidAfterHandler = false then Except.ok (st, [])
          else
            let storageBarChanges :=
              mergeStorageBarChanges (handlerResult.storageBars.getD [])
            let progressIndicators :=
              spreadRecord [] (handlerResult.progressIndicators.getD [])
            match processElements registry storage blockUid storageBarChanges
                progressIndicators init st uiElements with
            | Except.error msg => Except.error msg
            | Except.ok (st', effs) =>
                Except.ok ({ st' with dirtyMap := [] }, effs)

/-! ## Supporting lemmas -/

/-- A found index points back at the matched item. -/
theorem indexOfItem_getD :
    ∀ (l : List String) (x : String) (i : Nat),
      indexOfItem l x = some i → l.getD i "" = x := by
  intro l
  induction l with
  | nil => intro x i h; simp [indexOfItem] at h
  | cons y t ih =>
      intro x i h
      by_cases hy : y == x
      · simp [indexOfItem, hy] at h
        subst h
        simpa using eq_of_beq hy
      · simp [indexOfItem, hy] at h
        obtain ⟨j, hj, hji⟩ := h
        subst hji
        simpa using ih x j hj

/-- The concrete unfolding of the four-slot fill loop. -/
theorem fillUiBarLoop_four (s r : Nat) :
    fillUiBarLoop s 4 r =
      [(s + 3, min 16 r),
       (s + 2, min 16 (r - min 16 r)),
       (s + 1, min 16 (r - min 16 r - min 16 (r - min 16 r))),
       (s, min 16 (r - min 16 r - min 16 (r - min 16 r) -
             min 16 (r - min 16 r - min 16 (r - min 16 r))))] := by
  rfl

/-! ## Claim theorems -/

/-- C1: for every storage amount `a` with `0 ≤ a ≤ 6400` and every start
index `s`, the storage-bar fill writes exactly `⌊a / 100⌋` total segments
across the four slots `s .. s+3`, most-significant-first: the slots are
written from `s+3` down to `s`, the per-slot segment counts are monotonically
non-increasing along that order, and every slot's segment count is at most
16. -/
theorem fillUiBar_segment_distribution (a s : Nat) (h : a ≤ 6400) :
    ((fillUiBarLoop s 4 (a / STORAGE_AMOUNT_PER_BAR_SEGMENT)).map Prod.fst =
        [s + 3, s + 2, s + 1, s]) ∧
    ((fillUiBarLoop s 4 (a / STORAGE_AMOUNT_PER_BAR_SEGMENT)).map Prod.snd).sum = a / 100 ∧
    List.Chain' (fun x y => y ≤ x)
      ((fillUiBarLoop s 4 (a / STORAGE_AMOUNT_PER_BAR_SEGMENT)).map Prod.snd) ∧
    (∀ v ∈ (fillUiBarLoop s 4 (a / STORAGE_AMOUNT_PER_BAR_SEGMENT)).map Prod.snd, v ≤ 16) := by
  have h100 : STORAGE_AMOUNT_PER_BAR_SEGMENT = 100 := rfl
  have h64 : a / 100 ≤ 64 := by omega
  rw [h100, fillUiBarLoop_four]
  refine ⟨by simp, ?_, ?_, ?_⟩
  · simp only [List.map_cons, List.map_nil, List.sum_cons, List.sum_nil]
    omega
  · simp only [List.map_cons, List.map_nil, List.chain'_cons, List.chain'_singleton,
      and_true]
    omega
  · intro v hv
    simp only [List.map_cons, List.map_nil, List.mem_cons, List.not_mem_nil, or_false] at hv
    rcases hv with h1 | h1 | h1 | h1 <;> omega

/-- Witness for C1 at the spec's end-to-end scenario `a = 250`, `s = 0`:
the bar encodes `⌊250/100⌋ = 2` segments as `[2, 0, 0, 0]` over slots
`[3, 2, 1, 0]`. -/
theorem fillUiBar_segment_distribution_witness :
    (250 ≤ 6400) ∧
    (((fillUiBarLoop 0 4 (250 / STORAGE_AMOUNT_PER_BAR_SEGMENT)).map Prod.fst =
        [0 + 3, 0 + 2, 0 + 1, 0]) ∧
      ((fillUiBarLoop 0 4 (250 / STORAGE_AMOUNT_PER_BAR_SEGMENT)).map Prod.snd).sum = 250 / 100 ∧
      List.Chain' (fun x y => y ≤ x)
        ((fillUiBarLoop 0 4 (250 / STORAGE_AMOUNT_PER_BAR_SEGMENT)).map Prod.snd) ∧
      (∀ v ∈ (fillUiBarLoop 0 4 (250 / STORAGE_AMOUNT_PER_BAR_SEGMENT)).map Prod.snd, v ≤ 16)) :=
  ⟨by omega, fillUiBar_segment_distribution 250 0 (by omega)⟩

/-- C2: a forced item-slot render call (the logical slot id is dirty for the
block, or this is the init pass) unconditionally overwrites the container
slot with the stack representing the logical content (the empty-state
placeholder when the logical slot is empty), whatever the slot held, and
performs no other action: no ledger write, no ejection, no player cleanup. -/
theorem handleItemSlot_forced (st : SlotState) (element : UiItemSlotElement)
    (changedSlots : Option (List Nat)) (init : Bool)
    (h : ((changedSlots.getD []).contains element.slotId || init) = true) :
    handleItemSlot st element changedSlots init =
      ({ st with containerItem := some (machineItemStackToItemStack element st.ledgerItem) },
        [Effect.setSlot element.index
           (machineItemStackToItemStack element st.ledgerItem)]) := by
  cases hc : (changedSlots.getD []).contains element.slotId with
  | true =>
      have hm : element.slotId ∈ changedSlots.getD [] := by simpa using hc
      simp [handleItemSlot, hm]
  | false =>
      cases init with
      | true => simp [handleItemSlot]
      | false => rw [hc] at h; simp at h

/-- Witness for C2: a dirty slot id forces the overwrite even over a foreign
stack. -/
theorem handleItemSlot_forced_witness :
    ((((some [0] : Option (List Nat)).getD []).contains (0 : Nat) || false) = true) ∧
    handleItemSlot ⟨some ⟨0, 5⟩, some ⟨"x:gold", 3, none⟩⟩ ⟨2, 0, ["x:iron"]⟩
        (some [0]) false =
      ({ ledgerItem := some ⟨0, 5⟩,
         containerItem := some (machineItemStackToItemStack ⟨2, 0, ["x:iron"]⟩ (some ⟨0, 5⟩)) },
        [Effect.setSlot 2 (machineItemStackToItemStack ⟨2, 0, ["x:iron"]⟩ (some ⟨0, 5⟩))]) :=
  ⟨by decide, handleItemSlot_forced ⟨some ⟨0, 5⟩, some ⟨"x:gold", 3, none⟩⟩
    ⟨2, 0, ["x:iron"]⟩ (some [0]) false (by decide)⟩

/-- C4: a non-forced render call on an empty container slot sweeps the
player's UI-tagged items, silently (`notify = false`) empties the logical
item slot, re-renders the empty placeholder into the container slot, and
ejects nothing into the world. -/
theorem handleItemSlot_playerCleared (st : SlotState) (element : UiItemSlotElement)
    (changedSlots : Option (List Nat))
    (hDirty : (changedSlots.getD []).contains element.slotId = false)
    (hEmpty : st.containerItem = none) :
    handleItemSlot st element changedSlots false =
      ({ ledgerItem := none,
         containerItem := some (machineItemStackToItemStack element none) },
        [Effect.playerCleanup,
         Effect.ledgerWrite element.slotId none false,
         Effect.setSlot element.index (machineItemStackToItemStack element none)]) := by
  have hD : element.slotId ∉ changedSlots.getD [] := by simpa using hDirty
  simp [handleItemSlot, hD, hEmpty]

/-- Witness for C4: the player removed the widget stack from a non-dirty
slot. -/
theorem handleItemSlot_playerCleared_witness :
    (((none : Option (List Nat)).getD []).contains (0 : Nat) = false) ∧
    ((⟨some ⟨0, 5⟩, none⟩ : SlotState).containerItem = none) ∧
    handleItemSlot ⟨some ⟨0, 5⟩, none⟩ ⟨2, 0, ["x:iron"]⟩ none false =
      ({ ledgerItem := none,
         containerItem := some (machineItemStackToItemStack ⟨2, 0, ["x:iron"]⟩ none) },
        [Effect.playerCleanup,
         Effect.ledgerWrite 0 none false,
         Effect.setSlot 2 (machineItemStackToItemStack ⟨2, 0, ["x:iron"]⟩ none)]) :=
  ⟨by decide, rfl,
    handleItemSlot_playerCleared ⟨some ⟨0, 5⟩, none⟩ ⟨2, 0, ["x:iron"]⟩ none
      (by decide) rfl⟩

/-- C3: a non-forced render call on a container slot whose item is not
stackable with the expected stack either reclassifies or ejects. If the
item's catalog identity is among `allowedItems` and the item is stackable
with a clean instance of its own base kind, the logical item slot is
silently set to the matched index with the visible count and nothing is
ejected; otherwise the item is ejected into the world (not destroyed), the
logical item slot is reset to empty, and the empty placeholder is
re-rendered. -/
theorem handleItemSlot_incompatible (st : SlotState) (element : UiItemSlotElement)
    (changedSlots : Option (List Nat)) (containerStack : ItemStack)
    (hDirty : (changedSlots.getD []).contains element.slotId = false)
    (hItem : st.containerItem = some containerStack)
    (hIncompat : isStackableWith containerStack
      (machineItemStackToItemStack element st.ledgerItem) = false) :
    (∀ i, indexOfItem element.allowedItems containerStack.typeId = some i →
      isStackableWith containerStack (ItemStack.fresh containerStack.typeId) = true →
      handleItemSlot st element changedSlots false =
        ({ st with ledgerItem := some ⟨i, containerStack.amount⟩ },
          [Effect.playerCleanup,
           Effect.ledgerWrite element.slotId (some ⟨i, containerStack.amount⟩) false])) ∧
    ((indexOfItem element.allowedItems containerStack.typeId = none ∨
        isStackableWith containerStack (ItemStack.fresh containerStack.typeId) = false) →
      handleItemSlot st element changedSlots false =
        ({ ledgerItem := none,
           containerItem := some (machineItemStackToItemStack element none) },
          [Effect.playerCleanup,
           Effect.ledgerWrite element.slotId none false,
           Effect.eject containerStack,
           Effect.setSlot element.index (machineItemStackToItemStack element none)])) := by
  have hD : element.slotId ∉ changedSlots.getD [] := by simpa using hDirty
  constructor
  · intro i hIdx hClean
    simp [handleItemSlot, hD, hItem, hIncompat, hIdx, hClean]
  · intro hRej
    rcases hRej with hIdx | hClean
    · simp [handleItemSlot, hD, hItem, hIncompat, hIdx]
    · cases hIdx : indexOfItem element.allowedItems containerStack.typeId with
      | none => simp [handleItemSlot, hD, hItem, hIncompat, hIdx]
      | some i => simp [handleItemSlot, hD, hItem, hIncompat, hIdx, hClean]

/-- Witness for C3: a foreign gold stack in a slot that only allows iron is
ejected and the logical slot reset; the same stack in a slot allowing gold is
reclassified with nothing ejected. -/
theorem handleItemSlot_incompatible_witness :
    ((((none : Option (List Nat)).getD []).contains (0 : Nat) = false) ∧
      ((⟨some ⟨0, 5⟩, some ⟨"x:gold", 3, none⟩⟩ : SlotState).containerItem =
        some ⟨"x:gold", 3, none⟩) ∧
      isStackableWith ⟨"x:gold", 3, none⟩
        (machineItemStackToItemStack ⟨2, 0, ["x:iron"]⟩
          (⟨some ⟨0, 5⟩, some ⟨"x:gold", 3, none⟩⟩ : SlotState).ledgerItem) = false) ∧
    handleItemSlot ⟨some ⟨0, 5⟩, some ⟨"x:gold", 3, none⟩⟩ ⟨2, 0, ["x:iron"]⟩ none false =
      ({ ledgerItem := none,
         containerItem := some (machineItemStackToItemStack ⟨2, 0, ["x:iron"]⟩ none) },
        [Effect.playerCleanup,
         Effect.ledgerWrite 0 none false,
         Effect.eject ⟨"x:gold", 3, none⟩,
         Effect.setSlot 2 (machineItemStackToItemStack ⟨2, 0, ["x:iron"]⟩ none)]) :=
  ⟨⟨by decide, rfl, by decide⟩,
    (handleItemSlot_incompatible ⟨some ⟨0, 5⟩, some ⟨"x:gold", 3, none⟩⟩
        ⟨2, 0, ["x:iron"]⟩ none ⟨"x:gold", 3, none⟩ (by decide) rfl (by decide)).2
      (Or.inl (by decide))⟩

/-- Any stack can stack with itself. -/
theorem isStackableWith_self (x : ItemStack) : isStackableWith x x = true := by
  simp [isStackableWith]

@[simp] theorem machineItemStackToItemStack_some_amount (element : UiItemSlotElement)
    (mi : MachineItemStack) :
    (machineItemStackToItemStack element (some mi)).amount = mi.count := rfl

@[simp] theorem machineItemStackToItemStack_some_typeId (element : UiItemSlotElement)
    (mi : MachineItemStack) :
    (machineItemStackToItemStack element (some mi)).typeId =
      element.allowedItems.getD mi.typeIndex "" := rfl

@[simp] theorem machineItemStackToItemStack_some_nameTag (element : UiItemSlotElement)
    (mi : MachineItemStack) :
    (machineItemStackToItemStack element (some mi)).nameTag = none := rfl

/-- A non-forced render call on a slot already holding the freshly rendered
empty placeholder, with an empty logical slot, does nothing. -/
theorem handleItemSlot_on_emptyRender (element : UiItemSlotElement)
    (changedSlots : Option (List Nat)) (hD : element.slotId ∉ changedSlots.getD []) :
    handleItemSlot ⟨none, some (machineItemStackToItemStack element none)⟩ element
        changedSlots false =
      (⟨none, some (machineItemStackToItemStack element none)⟩, []) := by
  simp [handleItemSlot, hD, isStackableWith_self]

/-- A non-forced render call on a slot whose stack agrees with the ledger
(the ledger points back at the stack's own type with the visible count, and
the stack has no extra properties) does nothing. -/
theorem handleItemSlot_on_matched (element : UiItemSlotElement)
    (changedSlots : Option (List Nat)) (hD : element.slotId ∉ changedSlots.getD [])
    (c : ItemStack) (i : Nat)
    (hgd : element.allowedItems.getD i "" = c.typeId) (hnm : c.nameTag = none) :
    handleItemSlot ⟨some ⟨i, c.amount⟩, some c⟩ element changedSlots false =
      (⟨some ⟨i, c.amount⟩, some c⟩, []) := by
  have hgd' : element.allowedItems[i]?.getD "" = c.typeId := by
    simpa [List.getD] using hgd
  simp [handleItemSlot, hD, isStackableWith, hgd', hnm]

/-- After one non-forced render call, a second non-forced call with the same
(still clean) dirty state is a no-op: same state, no effects. -/
theorem handleItemSlot_stable (st : SlotState) (element : UiItemSlotElement)
    (changedSlots : Option (List Nat)) (hD : element.slotId ∉ changedSlots.getD []) :
    handleItemSlot (handleItemSlot st element changedSlots false).1 element changedSlots false
      = ((handleItemSlot st element changedSlots false).1, []) := by
  cases hc : st.containerItem with
  | none =>
      have h1 : handleItemSlot st element changedSlots false =
          (⟨none, some (machineItemStackToItemStack element none)⟩,
            [Effect.playerCleanup, Effect.ledgerWrite element.slotId none false,
             Effect.setSlot element.index (machineItemStackToItemStack element none)]) := by
        simp [handleItemSlot, hD, hc]
      rw [h1]
      exact handleItemSlot_on_emptyRender element changedSlots hD
  | some c =>
      cases hs : isStackableWith c (machineItemStackToItemStack element st.ledgerItem) with
      | true =>
          cases hl : st.ledgerItem with
          | none =>
              have h1 : handleItemSlot st element changedSlots false = (st, []) := by
                rw [hl] at hs
                simp [handleItemSlot, hD, hc, hs, hl]
              rw [h1]
              exact h1
          | some mi =>
              rw [hl] at hs
              by_cases heq : c.amount = mi.count
              · have h1 : handleItemSlot st element changedSlots false = (st, []) := by
                  simp [handleItemSlot, hD, hc, hs, hl, heq]
                rw [h1]
                exact h1
              · have h1 : handleItemSlot st element changedSlots false =
                    (⟨some ⟨mi.typeIndex, c.amount⟩, some c⟩,
                      [Effect.ledgerWrite element.slotId
                        (some ⟨mi.typeIndex, c.amount⟩) false]) := by
                  simp [handleItemSlot, hD, hc, hs, hl, heq]
                rw [h1]
                simp only [isStackableWith, machineItemStackToItemStack_some_typeId,
                  machineItemStackToItemStack_some_nameTag, Bool.and_eq_true,
                  beq_iff_eq] at hs
                exact handleItemSlot_on_matched element changedSlots hD c mi.typeIndex
                  hs.1.symm hs.2
      | false =>
          cases hidx : indexOfItem element.allowedItems c.typeId with
          | none =>
              have h1 : handleItemSlot st element changedSlots false =
                  (⟨none, some (machineItemStackToItemStack element none)⟩,
                    [Effect.playerCleanup, Effect.ledgerWrite element.slotId none false,
                     Effect.eject c,
                     Effect.setSlot element.index (machineItemStackToItemStack element none)]) := by
                simp [handleItemSlot, hD, hc, hs, hidx]
              rw [h1]
              exact handleItemSlot_on_emptyRender element changedSlots hD
          | some i =>
              by_cases hcl : isStackableWith c (ItemStack.fresh c.typeId) = true
              · have h1 : handleItemSlot st element changedSlots false =
                    (⟨some ⟨i, c.amount⟩, some c⟩,
                      [Effect.playerCleanup,
                       Effect.ledgerWrite element.slotId (some ⟨i, c.amount⟩) false]) := by
                  simp [handleItemSlot, hD, hc, hs, hidx, hcl]
                rw [h1]
                simp only [ItemStack.fresh, isStackableWith, Bool.and_eq_true,
                  beq_iff_eq] at hcl
                exact handleItemSlot_on_matched element changedSlots hD c i
                  (indexOfItem_getD element.allowedItems c.typeId i hidx) hcl.2
              · have hcl' : isStackableWith c (ItemStack.fresh c.typeId) = false := by
                  simpa using hcl
                have h1 : handleItemSlot st element changedSlots false =
                    (⟨none, some (machineItemStackToItemStack element none)⟩,
                      [Effect.playerCleanup, Effect.ledgerWrite element.slotId none false,
                       Effect.eject c,
                       Effect.setSlot element.index (machineItemStackToItemStack element none)]) := by
                  simp [handleItemSlot, hD, hc, hs, hidx, hcl']
                rw [h1]
                exact handleItemSlot_on_emptyRender element changedSlots hD

/-- C9: the item-slot renderer is idempotent. In a non-forced, non-init
state with no dirty mark for the slot, running it twice in a row (the second
call seeing the state the first call produced, with no intervening mutation)
makes the second call perform no container-slot write and no ledger write. -/
theorem handleItemSlot_idempotent (st : SlotState) (element : UiItemSlotElement)
    (changedSlots : Option (List Nat))
    (hDirty : (changedSlots.getD []).contains element.slotId = false) :
    ((handleItemSlot (handleItemSlot st element changedSlots false).1 element
        changedSlots false).2.all
      (fun eff => !eff.isSlotWrite && !eff.isLedger)) = true := by
  have hD : element.slotId ∉ changedSlots.getD [] := by simpa using hDirty
  rw [handleItemSlot_stable st element changedSlots hD]
  rfl

/-- Witness for C9: a slot whose stack drifted only in count; the first call
silently adopts the count, the second call writes nothing. -/
theorem handleItemSlot_idempotent_witness :
    ((((none : Option (List Nat)).getD []).contains (0 : Nat) = false) ∧
      ((handleItemSlot (handleItemSlot ⟨some ⟨0, 5⟩, some ⟨"x:iron", 3, none⟩⟩
          ⟨2, 0, ["x:iron"]⟩ none false).1 ⟨2, 0, ["x:iron"]⟩ none false).2.all
        (fun eff => !eff.isSlotWrite && !eff.isLedger)) = true) :=
  ⟨by decide,
    handleItemSlot_idempotent ⟨some ⟨0, 5⟩, some ⟨"x:iron", 3, none⟩⟩
      ⟨2, 0, ["x:iron"]⟩ none (by decide)⟩

/-- C7: if the machine entity is no longer valid when the asynchronous
update-handler call resumes, the pass returns with no side effects at all:
no container-slot write, no ledger write, no ejection, state untouched, and
no error raised. -/
theorem updateEntityUi_invalidEntity_silent (definition : InternalRegisteredMachine)
    (registry : List (String × StorageTypeOptions)) (storage : List (String × Nat))
    (blockUid : String) (handlerResult : UpdateUiHandlerResponse) (init : Bool)
    (st : UiState) (uiElements : List (String × UiElement)) (ev : String)
    (hUi : definition.uiElements = some uiElements)
    (hEv : definition.updateUiEvent = some ev) :
    updateEntityUi definition registry storage blockUid handlerResult false init st =
      Except.ok (st, []) := by
  simp [updateEntityUi, hUi, hEv]

/-- Witness for C7: a well-formed machine whose entity went invalid during
the handler call; the pass succeeds with no effects and leaves the dirty map
alone. -/
theorem updateEntityUi_invalidEntity_silent_witness :
    ((InternalRegisteredMachine.mk "m" (some [("bar", UiElement.storageBar 0)]) (some "ev")).uiElements
        = some [("bar", UiElement.storageBar 0)]) ∧
    ((InternalRegisteredMachine.mk "m" (some [("bar", UiElement.storageBar 0)]) (some "ev")).updateUiEvent
        = some "ev") ∧
    updateEntityUi (InternalRegisteredMachine.mk "m" (some [("bar", UiElement.storageBar 0)]) (some "ev"))
        [] [] "uid" (UpdateUiHandlerResponse.mk none none) false false
        (UiState.mk [] [] [("uid", [0])]) =
      Except.ok (UiState.mk [] [] [("uid", [0])], []) :=
  ⟨rfl, rfl,
    updateEntityUi_invalidEntity_silent
      (InternalRegisteredMachine.mk "m" (some [("bar", UiElement.storageBar 0)]) (some "ev"))
      [] [] "uid" (UpdateUiHandlerResponse.mk none none) false
      (UiState.mk [] [] [("uid", [0])]) [("bar", UiElement.storageBar 0)] "ev" rfl rfl⟩

/-- C8: when a session's pass completes its element loop, the entire
dirty-slot map is cleared — for every block identity, not only the block of
the pass's entity. -/
theorem updateEntityUi_clears_whole_dirtyMap (definition : InternalRegisteredMachine)
    (registry : List (String × StorageTypeOptions)) (storage : List (String × Nat))
    (blockUid : String) (handlerResult : UpdateUiHandlerResponse) (init : Bool)
    (st : UiState) (st' : UiState) (effs : List Effect)
    (h : updateEntityUi definition registry storage blockUid handlerResult true init st =
      Except.ok (st', effs)) :
    st'.dirtyMap = [] ∧ ∀ uid, recLookup st'.dirtyMap uid = none := by
  unfold updateEntityUi at h
  cases hUi : definition.uiElements with
  | none => rw [hUi] at h; simp at h
  | some uiElements =>
      rw [hUi] at h
      cases hEv : definition.updateUiEvent with
      | none => rw [hEv] at h; simp at h
      | some ev =>
          rw [hEv] at h
          simp only [Bool.true_eq_false, if_false] at h
          cases hP : processElements registry storage blockUid
              (mergeStorageBarChanges (handlerResult.storageBars.getD []))
              (spreadRecord [] (handlerResult.progressIndicators.getD [])) init st
              uiElements with
          | error msg => rw [hP] at h; simp at h
          | ok r =>
              rw [hP] at h
              simp only [Except.ok.injEq, Prod.mk.injEq] at h
              obtain ⟨h1, _⟩ := h
              rw [← h1]
              exact ⟨rfl, fun uid => rfl⟩

/-- Witness for C8: a pass over a machine with one storage-bar element leaves
an empty dirty map even though the map held marks for a different block. -/
theorem updateEntityUi_clears_whole_dirtyMap_witness :
    (updateEntityUi (InternalRegisteredMachine.mk "m" (some [("bar", UiElement.storageBar 0)]) (some "ev"))
        [] [] "uid" (UpdateUiHandlerResponse.mk none none) true false
        (UiState.mk [none, none, none, none] [] [("otherBlock", [3])]) =
      Except.ok (UiState.mk
        (List.foldl applyOneEffect
          (UiState.mk [none, none, none, none] [] [("otherBlock", [3])])
          (barScanFrom [none, none, none, none] 0 4 ++ fillDisabledUiBar 0)).inventory
        (List.foldl applyOneEffect
          (UiState.mk [none, none, none, none] [] [("otherBlock", [3])])
          (barScanFrom [none, none, none, none] 0 4 ++ fillDisabledUiBar 0)).ledger
        [],
        barScanFrom [none, none, none, none] 0 4 ++ fillDisabledUiBar 0)) ∧
    ((UiState.mk
        (List.foldl applyOneEffect
          (UiState.mk [none, none, none, none] [] [("otherBlock", [3])])
          (barScanFrom [none, none, none, none] 0 4 ++ fillDisabledUiBar 0)).inventory
        (List.foldl applyOneEffect
          (UiState.mk [none, none, none, none] [] [("otherBlock", [3])])
          (barScanFrom [none, none, none, none] 0 4 ++ fillDisabledUiBar 0)).ledger
        []).dirtyMap = [] ∧
      ∀ uid, recLookup ((UiState.mk
        (List.foldl applyOneEffect
          (UiState.mk [none, none, none, none] [] [("otherBlock", [3])])
          (barScanFrom [none, none, none, none] 0 4 ++ fillDisabledUiBar 0)).inventory
        (List.foldl applyOneEffect
          (UiState.mk [none, none, none, none] [] [("otherBlock", [3])])
          (barScanFrom [none, none, none, none] 0 4 ++ fillDisabledUiBar 0)).ledger
        []).dirtyMap) uid = none) := by
  constructor
  · rfl
  · exact updateEntityUi_clears_whole_dirtyMap
      (InternalRegisteredMachine.mk "m" (some [("bar", UiElement.storageBar 0)]) (some "ev"))
      [] [] "uid" (UpdateUiHandlerResponse.mk none none) false
      (UiState.mk [none, none, none, none] [] [("otherBlock", [3])]) _ _ rfl

/-- An out-of-range or non-integer value makes the progress-indicator
renderer fail before producing any effect. -/
theorem handleProgressIndicator_invalid (inv : Inventory) (index : Nat)
    (indicator : UiProgressIndicatorElementType) (value : Rat)
    (hbad : value < 0 ∨ ((PROGRESS_INDICATOR_MAX_VALUES indicator : Nat) : Rat) < value ∨
      valueIsInteger value = false) :
    handleProgressIndicator inv index indicator value =
      Except.error ("can't update UI: can't update progress indicator (indicator: '" ++
        indicatorTypeId indicator ++ "'): expected 'value' to be an integer between 0 and " ++
        toString (PROGRESS_INDICATOR_MAX_VALUES indicator) ++ " (inclusive) but got " ++
        toString value) := by
  simp [handleProgressIndicator, hbad]

/-- If the element loop of a pass succeeded, every progress-indicator
element it contains had a valid value. -/
theorem processElements_ok_progress_valid
    (registry : List (String × StorageTypeOptions)) (storage : List (String × Nat))
    (blockUid : String) (storageBarChanges : List UiStorageBarUpdateOptions)
    (progressIndicators : List (String × Rat)) (init : Bool) :
    ∀ (uiElements : List (String × UiElement)) (st : UiState) (r : UiState × List Effect),
      processElements registry storage blockUid storageBarChanges progressIndicators
          init st uiElements = Except.ok r →
      ∀ id indicator index,
        (id, UiElement.progressIndicator indicator index) ∈ uiElements →
        ¬ ((recLookup progressIndicators id).getD 0 < 0 ∨
            ((PROGRESS_INDICATOR_MAX_VALUES indicator : Nat) : Rat) <
              (recLookup progressIndicators id).getD 0 ∨
            valueIsInteger ((recLookup progressIndicators id).getD 0) = false) := by
  intro uiElements
  induction uiElements with
  | nil =>
      intro st r h id indicator index hmem
      simp at hmem
  | cons e rest ih =>
      intro st r h id indicator index hmem
      simp only [processElements] at h
      rcases List.mem_cons.mp hmem with hHead | hTail
      · subst hHead
        intro hbad
        have hPE : processElement registry storage blockUid storageBarChanges
            progressIndicators init st (id, UiElement.progressIndicator indicator index) =
            Except.error ("can't update UI: can't update progress indicator (indicator: '" ++
              indicatorTypeId indicator ++ "'): expected 'value' to be an integer between 0 and " ++
              toString (PROGRESS_INDICATOR_MAX_VALUES indicator) ++ " (inclusive) but got " ++
              toString ((recLookup progressIndicators id).getD 0)) := by
          simp only [processElement,
            handleProgressIndicator_invalid st.inventory index indicator
              ((recLookup progressIndicators id).getD 0) hbad]
        rw [hPE] at h
        simp at h
      · split at h
        · simp at h
        · split at h
          · simp at h
          · rename_i st1 effs1 heq1 st2 effs2 heq2
            exact ih _ _ heq2 id indicator index hTail

/-- C6: a progress-indicator render call whose value is not an integer in
`[0, max]` (max 16 for `arrow`, 13 for `flame`) raises a fatal error before
performing any slot write, player cleanup, or ejection; and a pass over a
machine declaring such an element aborts as a whole. -/
theorem handleProgressIndicator_invalid_aborts_pass
    (inv : Inventory) (index : Nat) (indicator : UiProgressIndicatorElementType)
    (value : Rat)
    (hbad : value < 0 ∨ ((PROGRESS_INDICATOR_MAX_VALUES indicator : Nat) : Rat) < value ∨
      valueIsInteger value = false) :
    (∃ msg, handleProgressIndicator inv index indicator value = Except.error msg) ∧
    (∀ (definition : InternalRegisteredMachine)
        (registry : List (String × StorageTypeOptions)) (storage : List (String × Nat))
        (blockUid : String) (handlerResult : UpdateUiHandlerResponse) (init : Bool)
        (st : UiState) (uiElements : List (String × UiElement)) (id : String),
      definition.uiElements = some uiElements →
      (id, UiElement.progressIndicator indicator index) ∈ uiElements →
      value = (recLookup (spreadRecord [] (handlerResult.progressIndicators.getD [])) id).getD 0 →
      ∃ msg, updateEntityUi definition registry storage blockUid handlerResult true init st =
        Except.error msg) := by
  constructor
  · exact ⟨_, handleProgressIndicator_invalid inv index indicator value hbad⟩
  · intro definition registry storage blockUid handlerResult init st uiElements id hUi hmem hv
    cases hEv : definition.updateUiEvent with
    | none =>
        refine ⟨"machine '" ++ definition.id ++
          "' is missing the 'updateUi' handler but has 'description.ui' defined", ?_⟩
        simp [updateEntityUi, hUi, hEv]
    | some ev =>
        cases hP : processElements registry storage blockUid
            (mergeStorageBarChanges (handlerResult.storageBars.getD []))
            (spreadRecord [] (handlerResult.progressIndicators.getD [])) init st
            uiElements with
        | error msg =>
            refine ⟨msg, ?_⟩
            simp [updateEntityUi, hUi, hEv, hP]
        | ok r =>
            exfalso
            exact processElements_ok_progress_valid registry storage blockUid
              (mergeStorageBarChanges (handlerResult.storageBars.getD []))
              (spreadRecord [] (handlerResult.progressIndicators.getD [])) init
              uiElements st r hP id indicator index hmem (hv ▸ hbad)

/-- Witness for C6 at the spec's example: value 17 for an `arrow` indicator
(max 16) fails, and a pass over a machine with that element errors out. -/
theorem handleProgressIndicator_invalid_aborts_pass_witness :
    (((17 : Rat) < 0 ∨
        ((PROGRESS_INDICATOR_MAX_VALUES UiProgressIndicatorElementType.arrow : Nat) : Rat) < 17 ∨
        valueIsInteger (17 : Rat) = false) ∧
      (∃ msg, handleProgressIndicator [] 0 UiProgressIndicatorElementType.arrow 17 =
        Except.error msg)) ∧
    (∃ msg, updateEntityUi
        (InternalRegisteredMachine.mk "m"
          (some [("p", UiElement.progressIndicator UiProgressIndicatorElementType.arrow 0)])
          (some "ev"))
        [] [] "uid" (UpdateUiHandlerResponse.mk none (some [("p", 17)])) true false
        (UiState.mk [] [] []) = Except.error msg) := by
  have hbad : (17 : Rat) < 0 ∨
      ((PROGRESS_INDICATOR_MAX_VALUES UiProgressIndicatorElementType.arrow : Nat) : Rat) < 17 ∨
      valueIsInteger (17 : Rat) = false := by
    refine Or.inr (Or.inl ?_)
    norm_num [PROGRESS_INDICATOR_MAX_VALUES]
  have happ := handleProgressIndicator_invalid_aborts_pass [] 0
    UiProgressIndicatorElementType.arrow 17 hbad
  refine ⟨⟨hbad, happ.1⟩, ?_⟩
  exact happ.2
    (InternalRegisteredMachine.mk "m"
      (some [("p", UiElement.progressIndicator UiProgressIndicatorElementType.arrow 0)])
      (some "ev"))
    [] [] "uid" (UpdateUiHandlerResponse.mk none (some [("p", 17)])) false
    (UiState.mk [] [] [])
    [("p", UiElement.progressIndicator UiProgressIndicatorElementType.arrow 0)] "p"
    rfl (by simp) rfl

/-- Whether the container slot at `i` holds a UI-tagged stack. -/
def slotHoldsUiItem (inv : Inventory) (i : Nat) : Bool :=
  match getSlot inv i with
  | some item => isUiItem item
  | none => false

/-- The effects of the first non-UI slot, as the scan emits them: a player
sweep, then the ejection of the occupant when there is one. -/
def firstOffenderEffects (inv : Inventory) (j : Nat) : List Effect :=
  Effect.playerCleanup ::
    (match getSlot inv j with
     | some item => [Effect.eject item]
     | none => [])

/-- The bar scan stops at the first slot that is empty or holds a foreign
stack: it is fully described by a first-offender search over the scanned
range. -/
theorem barScanFrom_eq_firstOffender (inv : Inventory) :
    ∀ (k i : Nat),
      barScanFrom inv i k =
        match (List.range' i k).find? (fun j => !slotHoldsUiItem inv j) with
        | none => []
        | some j => firstOffenderEffects inv j := by
  intro k
  induction k with
  | zero => intro i; rfl
  | succ k ih =>
      intro i
      rw [List.range'_succ]
      cases hg : getSlot inv i with
      | none =>
          have hpi : slotHoldsUiItem inv i = false := by simp [slotHoldsUiItem, hg]
          have hf : (i :: List.range' (i + 1) k).find? (fun j => !slotHoldsUiItem inv j) =
              some i := by
            simp [List.find?_cons, hpi]
          rw [hf]
          simp [barScanFrom, firstOffenderEffects, hg]
      | some item =>
          cases hu : isUiItem item with
          | true =>
              have hpi : slotHoldsUiItem inv i = true := by simp [slotHoldsUiItem, hg, hu]
              have hf : (i :: List.range' (i + 1) k).find? (fun j => !slotHoldsUiItem inv j) =
                  (List.range' (i + 1) k).find? (fun j => !slotHoldsUiItem inv j) := by
                simp [List.find?_cons, hpi]
              rw [hf]
              rw [show barScanFrom inv i (k + 1) = barScanFrom inv (i + 1) k by
                simp [barScanFrom, hg, hu]]
              exact ih (i + 1)
          | false =>
              have hpi : slotHoldsUiItem inv i = false := by simp [slotHoldsUiItem, hg, hu]
              have hf : (i :: List.range' (i + 1) k).find? (fun j => !slotHoldsUiItem inv j) =
                  some i := by
                simp [List.find?_cons, hpi]
              rw [hf]
              simp [barScanFrom, firstOffenderEffects, hg, hu]

/-- The scan ejects at most one stack. -/
theorem barScanFrom_countP_eject (inv : Inventory) (i k : Nat) :
    (barScanFrom inv i k).countP Effect.isEject ≤ 1 := by
  rw [barScanFrom_eq_firstOffender inv k i]
  cases hf : (List.range' i k).find? (fun j => !slotHoldsUiItem inv j) with
  | none => simp
  | some j =>
      cases hg : getSlot inv j with
      | none => simp [firstOffenderEffects, hg, List.countP_cons, Effect.isEject]
      | some item => simp [firstOffenderEffects, hg, List.countP_cons, Effect.isEject]

/-- The fill loop only writes slots. -/
theorem fillUiBar_countP_eject (segmentItemBaseId labelColorCode name : String)
    (amount startIndex : Nat) (change : Rat) :
    (fillUiBar segmentItemBaseId labelColorCode name amount startIndex change).countP
      Effect.isEject = 0 := by
  rw [List.countP_eq_zero]
  intro eff heff
  simp only [fillUiBar, List.mem_map] at heff
  obtain ⟨p, _, hp⟩ := heff
  rw [← hp]
  simp [Effect.isEject]

/-- The disabled fill only writes slots. -/
theorem fillDisabledUiBar_countP_eject (startIndex : Nat) :
    (fillDisabledUiBar startIndex).countP Effect.isEject = 0 := by
  simp [fillDisabledUiBar, List.countP_cons, Effect.isEject]

/-- C10: a storage-bar render call ejects at most one foreign stack. The
scan walks the four bar slots in ascending order and, at the first slot that
is empty or holds a non-UI-tagged stack, sweeps the player's UI items,
ejects the occupant if one is present, and stops; every effect the call adds
after the scan is a slot write of the fill, so foreign stacks in the
remaining bar slots are overwritten without being ejected. -/
theorem handleBarItems_ejects_at_most_once
    (registry : List (String × StorageTypeOptions)) (storage : List (String × Nat))
    (inv : Inventory) (startIndex : Nat) (type : String) (change : Rat)
    (effs : List Effect)
    (h : handleBarItems registry storage inv startIndex type change = Except.ok effs) :
    effs.countP Effect.isEject ≤ 1 ∧
    effs.countP Effect.isEject = (barScanFrom inv startIndex 4).countP Effect.isEject ∧
    barScanFrom inv startIndex 4 =
      (match (List.range' startIndex 4).find? (fun j => !slotHoldsUiItem inv j) with
       | none => []
       | some j => firstOffenderEffects inv j) := by
  have hchar := barScanFrom_eq_firstOffender inv 4 startIndex
  have hcount : effs.countP Effect.isEject =
      (barScanFrom inv startIndex 4).countP Effect.isEject := by
    by_cases ht : type = "_disabled"
    · rw [handleBarItems] at h
      rw [if_pos ht] at h
      simp only [Except.ok.injEq] at h
      rw [← h, List.countP_append, fillDisabledUiBar_countP_eject]
      exact Nat.add_zero _
    · rw [handleBarItems] at h
      rw [if_neg ht] at h
      cases hr : recLookup registry type with
      | none => rw [hr] at h; simp at h
      | some storageTypeOptions =>
          rw [hr] at h
          simp only [Except.ok.injEq] at h
          rw [← h, List.countP_append, fillUiBar_countP_eject]
          exact Nat.add_zero _
  exact ⟨hcount ▸ barScanFrom_countP_eject inv startIndex 4, hcount, hchar⟩

/-- Witness for C10: two foreign stacks cover a disabled bar; the call
ejects only the first one. -/
theorem handleBarItems_ejects_at_most_once_witness :
    (handleBarItems [] [] [some ⟨"x:iron", 1, none⟩, some ⟨"x:gold", 1, none⟩, none, none]
        0 "_disabled" 0 =
      Except.ok (barScanFrom [some ⟨"x:iron", 1, none⟩, some ⟨"x:gold", 1, none⟩, none, none] 0 4 ++
        fillDisabledUiBar 0)) ∧
    ((barScanFrom [some ⟨"x:iron", 1, none⟩, some ⟨"x:gold", 1, none⟩, none, none] 0 4 ++
        fillDisabledUiBar 0).countP Effect.isEject ≤ 1 ∧
      (barScanFrom [some ⟨"x:iron", 1, none⟩, some ⟨"x:gold", 1, none⟩, none, none] 0 4 ++
        fillDisabledUiBar 0).countP Effect.isEject =
        (barScanFrom [some ⟨"x:iron", 1, none⟩, some ⟨"x:gold", 1, none⟩, none, none] 0 4).countP
          Effect.isEject ∧
      barScanFrom [some ⟨"x:iron", 1, none⟩, some ⟨"x:gold", 1, none⟩, none, none] 0 4 =
        (match (List.range' 0 4).find?
            (fun j => !slotHoldsUiItem [some ⟨"x:iron", 1, none⟩, some ⟨"x:gold", 1, none⟩, none, none] j) with
         | none => []
         | some j => firstOffenderEffects
            [some ⟨"x:iron", 1, none⟩, some ⟨"x:gold", 1, none⟩, none, none] j)) :=
  ⟨rfl, handleBarItems_ejects_at_most_once [] []
    [some ⟨"x:iron", 1, none⟩, some ⟨"x:gold", 1, none⟩, none, none] 0 "_disabled" 0
    (barScanFrom [some ⟨"x:iron", 1, none⟩, some ⟨"x:gold", 1, none⟩, none, none] 0 4 ++
      fillDisabledUiBar 0) rfl⟩

/-- The number of storage-bar directives carried for element id `e`. -/
def countFor (l : List UiStorageBarUpdateOptions) (e : String) : Nat :=
  l.countP (fun x => x.element == e)

/-- The sum of the `change` fields of the directives for element id `e`. -/
def totalBarChange (l : List UiStorageBarUpdateOptions) (e : String) : Rat :=
  (l.map (fun x => if x.element == e then x.change else 0)).sum

/-- First-defined option, the shape `Option.or` takes in these proofs. -/
def optOr {α : Type} : Option α → Option α → Option α
  | some x, _ => some x
  | none, b => b

/-- The spec's merging rule for progress indicators, read literally: walk
the record's bindings in order and keep the last value bound to the element
id. -/
def lastValueWinsSpec (b : List (String × Rat)) (e : String) : Option Rat :=
  b.foldl (fun acc q => if q.1 == e then some q.2 else acc) none

/-- Updating every matching entry leaves the per-element directive count
unchanged. -/
theorem countFor_map_update (acc : List UiStorageBarUpdateOptions)
    (co : UiStorageBarUpdateOptions) (e : String) :
    countFor (acc.map (fun x =>
      if x.element == co.element then { x with change := x.change + co.change } else x)) e =
      countFor acc e := by
  unfold countFor
  rw [List.countP_map]
  congr 1
  funext x
  by_cases hx : x.element == co.element <;> simp [Function.comp, hx]

/-- Adding `co.change` onto every entry matching `co.element` raises the
per-element sum by the matching count times `co.change`. -/
theorem totalBarChange_map_update (acc : List UiStorageBarUpdateOptions)
    (co : UiStorageBarUpdateOptions) (e : String) :
    totalBarChange (acc.map (fun x =>
      if x.element == co.element then { x with change := x.change + co.change } else x)) e =
      totalBarChange acc e +
        (if co.element = e then (countFor acc e : Rat) * co.change else 0) := by
  induction acc with
  | nil => simp [totalBarChange, countFor]
  | cons a t ih =>
      simp only [List.map_cons, totalBarChange, List.sum_cons, countFor,
        List.countP_cons] at ih ⊢
      by_cases hce : co.element = e
      · by_cases hac : a.element = co.element
        · have hae : a.element = e := hce ▸ hac
          simp only [hce, if_true, hac, hae, beq_self_eq_true, if_true] at ih ⊢
          rw [ih]
          push_cast
          ring
        · have hae : ¬ a.element = e := fun h => hac (hce ▸ h)
          simp only [hce, if_true, beq_iff_eq, hac, if_false, hae] at ih ⊢
          rw [ih]
          push_cast
          ring
      · by_cases hac : a.element = co.element
        · have hae : ¬ a.element = e := fun h => hce (hac ▸ h)
          simp only [hce, if_false, beq_iff_eq, hac, if_true, hae] at ih ⊢
          rw [ih]
          ring
        · simp only [hce, if_false, beq_iff_eq, hac] at ih ⊢
          rw [ih]
          ring

/-- One merge step keeps at most one directive per element id and counts as
the capped sum. -/
theorem countFor_step (acc : List UiStorageBarUpdateOptions)
    (co : UiStorageBarUpdateOptions)
    (hinv : ∀ f, countFor acc f ≤ 1) (e : String) :
    countFor (mergeStorageBarChangesStep acc co) e =
      min 1 (countFor acc e + countFor [co] e) := by
  unfold mergeStorageBarChangesStep
  by_cases hany : acc.any (fun x => x.element == co.element) = true
  · rw [if_pos hany, countFor_map_update]
    have h1 : 1 ≤ countFor acc co.element := by
      obtain ⟨x, hx, hx2⟩ := List.any_eq_true.mp hany
      exact List.countP_pos_iff.mpr ⟨x, hx, hx2⟩
    by_cases hce : co.element = e
    · subst hce
      have h2 : countFor acc co.element = 1 := le_antisymm (hinv _) h1
      have h3 : countFor [co] co.element = 1 := by
        simp [countFor, List.countP_cons]
      omega
    · have h3 : countFor [co] e = 0 := by
        simp [countFor, List.countP_cons, beq_iff_eq, hce]
      have := hinv e
      omega
  · rw [if_neg hany]
    have happ : countFor (acc ++ [co]) e = countFor acc e + countFor [co] e := by
      simp [countFor, List.countP_append]
    rw [happ]
    by_cases hce : co.element = e
    · subst hce
      have h0 : countFor acc co.element = 0 := by
        rw [countFor, List.countP_eq_zero]
        intro x hx hx2
        exact hany (List.any_eq_true.mpr ⟨x, hx, hx2⟩)
      have h3 : countFor [co] co.element = 1 := by
        simp [countFor, List.countP_cons]
      omega
    · have h3 : countFor [co] e = 0 := by
        simp [countFor, List.countP_cons, beq_iff_eq, hce]
      have := hinv e
      omega

/-- One merge step adds the incoming directive's contribution onto the
per-element change sum. -/
theorem totalBarChange_step (acc : List UiStorageBarUpdateOptions)
    (co : UiStorageBarUpdateOptions)
    (hinv : ∀ f, countFor acc f ≤ 1) (e : String) :
    totalBarChange (mergeStorageBarChangesStep acc co) e =
      totalBarChange acc e + totalBarChange [co] e := by
  unfold mergeStorageBarChangesStep
  by_cases hany : acc.any (fun x => x.element == co.element) = true
  · rw [if_pos hany, totalBarChange_map_update]
    by_cases hce : co.element = e
    · subst hce
      have h1 : 1 ≤ countFor acc co.element := by
        obtain ⟨x, hx, hx2⟩ := List.any_eq_true.mp hany
        exact List.countP_pos_iff.mpr ⟨x, hx, hx2⟩
      have h2 : countFor acc co.element = 1 := le_antisymm (hinv _) h1
      simp [h2, totalBarChange]
    · simp [hce, totalBarChange, beq_iff_eq]
  · rw [if_neg hany]
    simp [totalBarChange]

/-- Folding the merge over a directive list preserves per-element change
sums and caps per-element directive counts at one. -/
theorem mergeStorageBarChanges_fold (l : List UiStorageBarUpdateOptions) :
    ∀ acc, (∀ f, countFor acc f ≤ 1) →
      ∀ e, countFor (l.foldl mergeStorageBarChangesStep acc) e =
          min 1 (countFor acc e + countFor l e) ∧
        totalBarChange (l.foldl mergeStorageBarChangesStep acc) e =
          totalBarChange acc e + totalBarChange l e := by
  induction l with
  | nil =>
      intro acc hinv e
      constructor
      · have h := hinv e
        have h0 : countFor [] e = 0 := rfl
        rw [List.foldl_nil, h0]
        omega
      · simp [totalBarChange]
  | cons co t ih =>
      intro acc hinv e
      rw [List.foldl_cons]
      have hinv' : ∀ f, countFor (mergeStorageBarChangesStep acc co) f ≤ 1 := by
        intro f
        rw [countFor_step acc co hinv f]
        omega
      obtain ⟨hcount, htotal⟩ := ih (mergeStorageBarChangesStep acc co) hinv' e
      constructor
      · rw [hcount, countFor_step acc co hinv e]
        have hco : countFor (co :: t) e = countFor [co] e + countFor t e := by
          simp [countFor, List.countP_cons]
          omega
        omega
      · rw [htotal, totalBarChange_step acc co hinv e]
        have hco : totalBarChange (co :: t) e = totalBarChange [co] e + totalBarChange t e := by
          simp [totalBarChange]
        rw [hco]
        ring

/-- Head expansion of an association-list lookup. -/
theorem recLookup_cons (p : String × Rat) (t : List (String × Rat)) (e : String) :
    recLookup (p :: t) e = if p.1 = e then some p.2 else recLookup t e := by
  by_cases hp : p.1 = e
  · simp [recLookup, List.find?_cons, hp]
  · simp [recLookup, List.find?_cons, hp]

/-- Looking a key up after a record-set of every matching entry. -/
theorem recLookup_map_set :
    ∀ (a : List (String × Rat)) (k : String) (v : Rat) (e : String),
      recLookup (a.map (fun r => if r.1 == k then (k, v) else r)) e =
        if (a.any (fun r => r.1 == k)) && (k == e) then some v
        else recLookup a e := by
  intro a
  induction a with
  | nil => intro k v e; simp [recLookup]
  | cons p t ih =>
      intro k v e
      have hmap : (p :: t).map (fun r => if r.1 == k then (k, v) else r) =
          (if p.1 == k then (k, v) else p) ::
            t.map (fun r => if r.1 == k then (k, v) else r) := rfl
      rw [hmap]
      by_cases hp : p.1 = k
      · by_cases hke : k = e
        · rw [if_pos (by simp [hp] : (p.1 == k) = true), recLookup_cons]
          rw [if_pos (show ((k, v)).1 = e from hke)]
          rw [if_pos (by simp [List.any_cons, hp, hke] :
            (((p :: t).any (fun r => r.1 == k)) && (k == e)) = true)]
        · rw [if_pos (by simp [hp] : (p.1 == k) = true), recLookup_cons]
          rw [if_neg (show ¬ ((k, v)).1 = e from hke), ih]
          rw [if_neg (by simp [hke] : ¬ ((t.any (fun r => r.1 == k)) && (k == e)) = true)]
          rw [if_neg (by simp [hke] :
            ¬ (((p :: t).any (fun r => r.1 == k)) && (k == e)) = true)]
          rw [recLookup_cons]
          rw [if_neg (show ¬ p.1 = e from fun h => hke (hp ▸ h))]
      · rw [if_neg (by simp [hp] : ¬ (p.1 == k) = true), recLookup_cons]
        by_cases hpe : p.1 = e
        · have hke : ¬ k = e := fun h => hp (by rw [hpe, h])
          rw [if_pos hpe]
          rw [if_neg (by simp [hke] :
            ¬ (((p :: t).any (fun r => r.1 == k)) && (k == e)) = true)]
          rw [recLookup_cons, if_pos hpe]
        · rw [if_neg hpe, ih]
          have hany : ((p :: t).any (fun r => r.1 == k)) = (t.any (fun r => r.1 == k)) := by
            simp [List.any_cons, hp]
          rw [hany, recLookup_cons, if_neg hpe]

/-- Looking a key up after a single record-set. -/
theorem recLookup_recordSet (a : List (String × Rat)) (k : String) (v : Rat) (e : String) :
    recLookup (recordSet a k v) e = if k = e then some v else recLookup a e := by
  unfold recordSet
  by_cases hany : a.any (fun r => r.1 == k) = true
  · rw [if_pos hany, recLookup_map_set, hany]
    by_cases hke : k = e
    · simp [hke]
    · simp [hke]
  · rw [if_neg hany]
    rw [recLookup, List.find?_append]
    cases hfa : a.find? (fun r => r.1 == e) with
    | some q =>
        have hq : q.1 = e := by simpa using List.find?_some hfa
        have hke : ¬ k = e := by
          intro hke
          subst hke
          refine hany (List.any_eq_true.mpr ⟨q, List.mem_of_find?_eq_some hfa, ?_⟩)
          simp [hq]
        rw [if_neg hke]
        simp [Option.or, recLookup, hfa]
    | none =>
        by_cases hke : k = e
        · rw [if_pos hke]
          simp [Option.or, List.find?_cons, hke]
        · rw [if_neg hke]
          simp [Option.or, List.find?_cons, hke, recLookup, hfa]

/-- Folding the last-value-wins walk from an arbitrary seed factors through
the walk from `none`. -/
theorem lastValueWins_shift (e : String) :
    ∀ (t : List (String × Rat)) (acc : Option Rat),
      t.foldl (fun a2 q => if q.1 == e then some q.2 else a2) acc =
        optOr (t.foldl (fun a2 q => if q.1 == e then some q.2 else a2) none) acc := by
  intro t
  induction t with
  | nil => intro acc; simp [optOr]
  | cons q t ih =>
      intro acc
      rw [List.foldl_cons, List.foldl_cons, ih, ih (if q.1 == e then some q.2 else none)]
      cases hA : t.foldl (fun a2 r => if r.1 == e then some r.2 else a2) none with
      | some x => simp [optOr]
      | none =>
          by_cases hq : q.1 = e
          · simp [optOr, hq]
          · simp [optOr, hq]

/-- Object spread into an empty record looks up to the last bound value. -/
theorem recLookup_spreadRecord (e : String) :
    ∀ (b a : List (String × Rat)),
      recLookup (spreadRecord a b) e = optOr (lastValueWinsSpec b e) (recLookup a e) := by
  intro b
  induction b with
  | nil => intro a; simp [spreadRecord, lastValueWinsSpec, optOr]
  | cons q t ih =>
      intro a
      have h1 : spreadRecord a (q :: t) = spreadRecord (recordSet a q.1 q.2) t := rfl
      rw [h1, ih, recLookup_recordSet]
      have h2 : lastValueWinsSpec (q :: t) e =
          optOr (lastValueWinsSpec t e) (if q.1 == e then some q.2 else none) := by
        have h3 : lastValueWinsSpec (q :: t) e =
            t.foldl (fun a2 r => if r.1 == e then some r.2 else a2)
              (if q.1 == e then some q.2 else none) := rfl
        rw [h3, lastValueWins_shift e t]
        rfl
      rw [h2]
      cases hA : lastValueWinsSpec t e with
      | some x => simp [optOr]
      | none =>
          by_cases hq : q.1 = e
          · simp [optOr, hq]
          · simp [optOr, hq]

/-- C5: merging an update-handler response combines all storage-bar
directives sharing an element id into at most one directive whose change is
the sum of their change fields (so directives with change 5 and change -2
yield an applied change of 3), and merges progress-indicator values by
element id with the last value winning. -/
theorem updateEntityUi_merge_semantics (l : List UiStorageBarUpdateOptions)
    (pl : List (String × Rat)) (e : String) :
    countFor (mergeStorageBarChanges l) e = min 1 (countFor l e) ∧
    totalBarChange (mergeStorageBarChanges l) e = totalBarChange l e ∧
    recLookup (spreadRecord [] pl) e = lastValueWinsSpec pl e := by
  have hinv : ∀ f, countFor ([] : List UiStorageBarUpdateOptions) f ≤ 1 := by
    intro f
    have h0 : countFor [] f = 0 := rfl
    omega
  obtain ⟨hc, ht⟩ := mergeStorageBarChanges_fold l [] hinv e
  refine ⟨?_, ?_, ?_⟩
  · rw [mergeStorageBarChanges, hc]
    have h0 : countFor [] e = 0 := rfl
    rw [h0, Nat.zero_add]
  · rw [mergeStorageBarChanges, ht]
    have h0 : totalBarChange [] e = 0 := by simp [totalBarChange]
    rw [h0, zero_add]
  · rw [recLookup_spreadRecord e pl []]
    cases lastValueWinsSpec pl e with
    | some x => rfl
    | none => rfl
